import Mathlib

/-!
Shallow embedding of the MiqBOT bridge server (`mvp1_bridge_server`) and
orchestrator (`mvp5_orchestrator`) components that the specification's
claims are about.

Modelling conventions:
* Rust `u64`/`usize` values are modelled as `Nat`.  All arithmetic the code
  performs on them is `saturating_add` / `saturating_sub` / comparisons, which
  on `Nat` are exactly `+`, truncated `-` and `≤`/`<` (no wrap-around occurs,
  and `Nat` subtraction is saturating by definition).
* `VecDeque<T>` is a `List T` whose head is the deque front; `push_back`
  appends at the end, `pop_front` takes the head.
* `HashMap<K, V>` is an association `List (K × V)`; the hash map's key
  uniqueness shows up as a `Nodup` hypothesis where a claim needs it.
* An mpsc reply channel is observed through the list of frames that have been
  delivered on it, oldest first; a `sendOk : Bool` oracle models whether a
  `send` on the channel succeeds (receiver still alive) or errors.
* Rust `char::is_whitespace` is modelled by Lean's `Char.isWhitespace`
  (ASCII whitespace); the difference (exotic Unicode whitespace) is
  irrelevant to every claim settled here.
-/

/-! Part: Speech queue (`mvp5_orchestrator/src/speech_queue.rs`) -/

/-- Rust `SpeechPriority` from `speech_queue.rs`. -/
inductive SpeechPriority
  | P0Safety
  | P1ChatReply
  | P2Commentary
deriving DecidableEq, Repr

/-- Rust `SpeechSource` from `speech_queue.rs`. -/
inductive SpeechSource
  | Telemetry
  | Filler
  | ActionSafety
deriving DecidableEq, Repr

/-- Rust `SpeechJob` from `speech_queue.rs`. -/
structure SpeechJob where
  job_id : String
  text : String
  priority : SpeechPriority
  source : SpeechSource
  enqueued_ms : Nat
  deadline_ms : Nat
  dedupe_key : String
deriving DecidableEq, Repr

/-- Rust `DroppedSpeechJob` from `speech_queue.rs` (`reason` is a `&'static str`). -/
structure DroppedSpeechJob where
  job : SpeechJob
  reason : String
deriving DecidableEq, Repr

/-- Rust `SpeechQueue` from `speech_queue.rs`: three FIFO sub-queues with caps. -/
structure SpeechQueue where
  p0 : List SpeechJob
  p1 : List SpeechJob
  p2 : List SpeechJob
  max_p0 : Nat
  max_p1 : Nat
  max_p2 : Nat
deriving DecidableEq, Repr

namespace SpeechQueue

/-- Rust `SpeechQueue::new`. -/
def new (max_p0 max_p1 max_p2 : Nat) : SpeechQueue :=
  { p0 := [], p1 := [], p2 := [], max_p0 := max_p0, max_p1 := max_p1, max_p2 := max_p2 }

/-- The sub-queue selected by `queue_and_cap_mut` for a priority. -/
def tier (q : SpeechQueue) : SpeechPriority → List SpeechJob
  | .P0Safety => q.p0
  | .P1ChatReply => q.p1
  | .P2Commentary => q.p2

/-- The capacity selected by `queue_and_cap_mut` for a priority. -/
def tierCap (q : SpeechQueue) : SpeechPriority → Nat
  | .P0Safety => q.max_p0
  | .P1ChatReply => q.max_p1
  | .P2Commentary => q.max_p2

/-- Body of `SpeechQueue::push` acting on one sub-queue: if the queue is at or
over capacity, `pop_front` the oldest job (reporting it with reason
`queue_overflow`), then `push_back` the new job. -/
def pushInto (queue : List SpeechJob) (cap : Nat) (job : SpeechJob) :
    List SpeechJob × Option DroppedSpeechJob :=
  if cap ≤ queue.length then
    match queue with
    | [] => ([job], none)
    | old :: rest => (rest ++ [job], some { job := old, reason := "queue_overflow" })
  else
    (queue ++ [job], none)

/-- Rust `SpeechQueue::push`. -/
def push (q : SpeechQueue) (job : SpeechJob) : SpeechQueue × Option DroppedSpeechJob :=
  match job.priority with
  | .P0Safety =>
      let r := pushInto q.p0 q.max_p0 job
      ({ q with p0 := r.1 }, r.2)
  | .P1ChatReply =>
      let r := pushInto q.p1 q.max_p1 job
      ({ q with p1 := r.1 }, r.2)
  | .P2Commentary =>
      let r := pushInto q.p2 q.max_p2 job
      ({ q with p2 := r.1 }, r.2)

/-- Rust `SpeechQueue::pop_next_from_queue`: pop fronts until a job survives the
deadline check (`never_expire || job.deadline_ms >= now_ms`); expired fronts
are silently discarded.  Returns the popped job (if any) and the remaining
queue. -/
def popNextFromQueue (queue : List SpeechJob) (now_ms : Nat) (never_expire : Bool) :
    Option SpeechJob × List SpeechJob :=
  match queue with
  | [] => (none, [])
  | job :: rest =>
      if never_expire || decide (now_ms ≤ job.deadline_ms) then (some job, rest)
      else popNextFromQueue rest now_ms never_expire

/-- Rust `SpeechQueue::pop_next`: strict priority, P0 first with `never_expire`. -/
def popNext (q : SpeechQueue) (now_ms : Nat) : Option SpeechJob × SpeechQueue :=
  match popNextFromQueue q.p0 now_ms true with
  | (some job, p0r) => (some job, { q with p0 := p0r })
  | (none, p0r) =>
      match popNextFromQueue q.p1 now_ms false with
      | (some job, p1r) => (some job, { q with p0 := p0r, p1 := p1r })
      | (none, p1r) =>
          let r2 := popNextFromQueue q.p2 now_ms false
          (r2.1, { q with p0 := p0r, p1 := p1r, p2 := r2.2 })

/-- Rust `SpeechQueue::drain_expired` on one sub-queue: keep P0 jobs and jobs whose
deadline has not expired; report the rest with reason `deadline_expired`. -/
def drainExpired (queue : List SpeechJob) (now_ms : Nat) :
    List SpeechJob × List DroppedSpeechJob :=
  match queue with
  | [] => ([], [])
  | job :: rest =>
      let r := drainExpired rest now_ms
      if !(decide (job.priority = SpeechPriority.P0Safety)) && decide (job.deadline_ms < now_ms) then
        (r.1, { job := job, reason := "deadline_expired" } :: r.2)
      else
        (job :: r.1, r.2)

/-- Rust `SpeechQueue::drop_expired`: drain all three sub-queues in order. -/
def dropExpired (q : SpeechQueue) (now_ms : Nat) : SpeechQueue × List DroppedSpeechJob :=
  let r0 := drainExpired q.p0 now_ms
  let r1 := drainExpired q.p1 now_ms
  let r2 := drainExpired q.p2 now_ms
  ({ q with p0 := r0.1, p1 := r1.1, p2 := r2.1 }, r0.2 ++ r1.2 ++ r2.2)

/-- Push a whole list of jobs, discarding the overflow reports. -/
def pushAll (q : SpeechQueue) (jobs : List SpeechJob) : SpeechQueue :=
  jobs.foldl (fun acc j => (acc.push j).1) q

/-- Well-formedness: every job sits in the sub-queue of its own priority.
`push` routes by `job.priority`, so every queue reachable from `new` satisfies
this. -/
def Wf (q : SpeechQueue) : Prop :=
  (∀ j ∈ q.p0, j.priority = SpeechPriority.P0Safety) ∧
  (∀ j ∈ q.p1, j.priority = SpeechPriority.P1ChatReply) ∧
  (∀ j ∈ q.p2, j.priority = SpeechPriority.P2Commentary)

end SpeechQueue

/-! Part: Action ledger (`mvp5_orchestrator/src/action_ledger.rs`) -/

/-- Rust `InflightAction` from `action_ledger.rs`. -/
structure InflightAction where
  ack_deadline_ms : Nat
  result_deadline_ms : Nat
  acked : Bool
deriving DecidableEq, Repr

/-- Rust `TimeoutKind` from `action_ledger.rs`. -/
inductive TimeoutKind
  | ack
  | result
deriving DecidableEq, Repr

/-- Rust `TimeoutEvent` from `action_ledger.rs`. -/
structure TimeoutEvent where
  request_id : String
  kind : TimeoutKind
deriving DecidableEq, Repr

/-- The per-entry branch of `ActionLedger::poll_timeouts`: `Ack` when
`!acked && now >= ack_deadline_ms`, else `Result` when
`now >= result_deadline_ms`, else nothing. -/
def entryTimeout (now_ms : Nat) (a : InflightAction) : Option TimeoutKind :=
  if !a.acked && decide (a.ack_deadline_ms ≤ now_ms) then some TimeoutKind.ack
  else if decide (a.result_deadline_ms ≤ now_ms) then some TimeoutKind.result
  else none

/-- Rust `ActionLedger` from `action_ledger.rs`; the `HashMap` is an association
list with pairwise-distinct keys. -/
structure ActionLedger where
  inflight : List (String × InflightAction)
deriving DecidableEq, Repr

namespace ActionLedger

/-- Rust `HashMap::insert` on the association-list model: replace the value at an
existing key, otherwise append. -/
def insertAssoc {α : Type} (l : List (String × α)) (k : String) (v : α) :
    List (String × α) :=
  match l with
  | [] => [(k, v)]
  | (k', v') :: rest =>
      if k' = k then (k, v) :: rest else (k', v') :: insertAssoc rest k v

/-- Rust `HashMap::remove` on the association-list model (keys are distinct, so
filtering all occurrences of the key agrees with removing the entry). -/
def removeAssoc {α : Type} (l : List (String × α)) (k : String) :
    List (String × α) :=
  l.filter fun e => !(e.1 == k)

/-- Rust `ActionLedger::new`. -/
def new : ActionLedger := { inflight := [] }

/-- Rust `ActionLedger::on_sent` (`saturating_add` is `Nat` addition). -/
def onSent (l : ActionLedger) (request_id : String)
    (now_ms ack_timeout_ms result_timeout_ms : Nat) : ActionLedger :=
  { inflight :=
      insertAssoc l.inflight request_id
        { ack_deadline_ms := now_ms + ack_timeout_ms
          result_deadline_ms := now_ms + result_timeout_ms
          acked := false } }

/-- Rust `ActionLedger::on_ack`. -/
def onAck (l : ActionLedger) (request_id : String) (accepted : Bool) : ActionLedger :=
  if accepted then
    { inflight := l.inflight.map fun e =>
        if e.1 == request_id then (e.1, { e.2 with acked := true }) else e }
  else
    { inflight := removeAssoc l.inflight request_id }

/-- Rust `ActionLedger::on_result`. -/
def onResult (l : ActionLedger) (request_id : String) : ActionLedger :=
  { inflight := removeAssoc l.inflight request_id }

/-- Rust `ActionLedger::poll_timeouts`: the imperative loop collects, per entry, at
most one event and marks the entry for removal; with distinct keys this is a
`filterMap` for the events and a `filter` for the surviving entries. -/
def pollTimeouts (l : ActionLedger) (now_ms : Nat) :
    List TimeoutEvent × ActionLedger :=
  (l.inflight.filterMap fun e =>
      (entryTimeout now_ms e.2).map fun k => TimeoutEvent.mk e.1 k,
   { inflight := l.inflight.filter fun e => (entryTimeout now_ms e.2).isNone })

end ActionLedger

/-! Part: State actor dedupe (`mvp5_orchestrator/src/state_actor.rs`) -/

/-- Rust `normalize_dedupe_key` from `state_actor.rs`:
`text.split_whitespace().collect::<String>()`, i.e. the concatenation of the
whitespace-separated words, which is exactly the text with every whitespace
character removed. -/
def normalizeDedupeKey (text : String) : String :=
  String.mk (text.data.filter fun c => !c.isWhitespace)

/-- The fields of `StateActor` that `enqueue_speech` reads and writes. -/
structure ActorSpeechState where
  queue : SpeechQueue
  last_line : Option String
  last_line_ms : Nat
deriving DecidableEq, Repr

/-- Rust `StateActor::enqueue_speech`.  `duplicate_cooldown_ms` is the config
field; `jobId` stands for the freshly generated UUID.  Returns the updated
actor state and the overflow drop reported by `SpeechQueue::push` (the
metric side effect).  A duplicate within the cooldown returns the state
unchanged and no drop (`return Ok(())` before any queue access). -/
def enqueueSpeech (duplicate_cooldown_ms : Nat) (st : ActorSpeechState)
    (jobId text : String) (priority : SpeechPriority) (source : SpeechSource)
    (deadline_delta_ms now_ms : Nat) :
    ActorSpeechState × Option DroppedSpeechJob :=
  let dedupe_key := normalizeDedupeKey text
  let isDup :=
    match st.last_line with
    | some last =>
        last == dedupe_key && decide (now_ms - st.last_line_ms < duplicate_cooldown_ms)
    | none => false
  if isDup then (st, none)
  else
    let job : SpeechJob :=
      { job_id := jobId
        text := text
        priority := priority
        source := source
        enqueued_ms := now_ms
        deadline_ms := now_ms + deadline_delta_ms
        dedupe_key := dedupe_key }
    let r := st.queue.push job
    ({ queue := r.1, last_line := some dedupe_key, last_line_ms := now_ms }, r.2)

/-! Part: Relay hub (`mvp1_bridge_server/src/relay.rs`)

The protobuf payload types come from the generated `pb::bridge_v1` module
(schema outside `src/`); only the fields the relay code reads and writes are
modelled. -/

/-- Rust `pb::ActionAck` (fields used by the relay). -/
structure ActionAck where
  request_id : String
  accepted : Bool
  reason : String
deriving DecidableEq, Repr

/-- Rust `pb::ActionStatus` (variants named in the spec; the relay only ever
constructs `timeout`). -/
inductive ActionStatus
  | unspecified
  | ok
  | timeout
  | rejected
deriving DecidableEq, Repr

/-- Rust `pb::ActionResult` (fields used by the relay). -/
structure ActionResult where
  request_id : String
  status : ActionStatus
  detail : String
  final_state_version : Nat
deriving DecidableEq, Repr

/-- Rust `ActionRelayFrame` from `relay.rs`. -/
inductive ActionRelayFrame
  | ack (a : ActionAck)
  | result (r : ActionResult)
deriving DecidableEq, Repr

/-- A terminal frame in the sense of the spec: an `ActionAck` with
`accepted = false`, or an `ActionResult`. -/
def ActionRelayFrame.isTerminal : ActionRelayFrame → Bool
  | .ack a => !a.accepted
  | .result _ => true

/-- An `ActionAck{accepted=false}` frame. -/
def ActionRelayFrame.isAckReject : ActionRelayFrame → Bool
  | .ack a => !a.accepted
  | .result _ => false

/-- An `ActionResult` frame. -/
def ActionRelayFrame.isResult : ActionRelayFrame → Bool
  | .ack _ => false
  | .result _ => true

/-! Part: Per-entry lifecycle (claim C1)

`route_action_ack`, `route_action_result` and `fail_all_pending` touch a given
`request_id` independently of every other key, and all removals of the entry
happen while the `pending_actions` mutex is held, so the hub operations
affecting one entry are serialised by that mutex (the only channel send that
happens while the entry stays pending is the non-terminal accepted-ack
forward).  The lifetime of one entry is therefore the fold of the following
atomic operations over its state. -/

/-- State of one `pending_actions` entry: whether the `request_id` is still a
key of the map, and the frames delivered on its reply channel so far. -/
structure EntryState where
  present : Bool
  frames : List ActionRelayFrame
deriving DecidableEq, Repr

/-- A freshly inserted entry (`enqueue_action` inserted the reply sender;
nothing delivered yet). -/
def entryInit : EntryState := { present := true, frames := [] }

/-- One hub operation as it affects a fixed `request_id`.  `sendOk` oracles
record whether the corresponding reply-channel `send` succeeds. -/
inductive EntryOp
  | routeAck (accepted : Bool) (reason : String) (sendOk : Bool)
  | routeResult (status : ActionStatus) (detail : String) (fsv : Nat) (sendOk : Bool)
  | detach (sendOkAck sendOkResult : Bool)

/-- Effect of one operation on the entry, transcribed from
`RelayHub::route_action_ack`, `RelayHub::route_action_result` and
`RelayHub::fail_all_pending` (the branch `fail_all_pending` takes for each
drained entry). -/
def stepEntry (rid : String) (s : EntryState) : EntryOp → EntryState
  | .routeAck accepted reason sendOk =>
      if s.present then
        if accepted then
          if sendOk then
            { s with frames := s.frames ++ [ActionRelayFrame.ack ⟨rid, true, reason⟩] }
          else
            { s with present := false }
        else
          { present := false
            frames := s.frames ++
              (if sendOk then [ActionRelayFrame.ack ⟨rid, false, reason⟩] else []) }
      else s
  | .routeResult status detail fsv sendOk =>
      if s.present then
        { present := false
          frames := s.frames ++
            (if sendOk then [ActionRelayFrame.result ⟨rid, status, detail, fsv⟩] else []) }
      else s
  | .detach sendOkAck sendOkResult =>
      if s.present then
        { present := false
          frames := s.frames ++
            (if sendOkAck then
              [ActionRelayFrame.ack ⟨rid, false, "primary game client disconnected"⟩]
             else []) ++
            (if sendOkResult then
              [ActionRelayFrame.result
                ⟨rid, ActionStatus.timeout, "primary game client disconnected", 0⟩]
             else []) }
      else s

/-- Run a whole interleaving of hub operations against one entry. -/
def runEntry (rid : String) (s : EntryState) (ops : List EntryOp) : EntryState :=
  ops.foldl (stepEntry rid) s

/-- Number of terminal frames delivered on the channel. -/
def countTerminal (frames : List ActionRelayFrame) : Nat :=
  frames.countP fun f => f.isTerminal

/-- Number of `ActionAck{accepted=false}` frames delivered. -/
def countAckReject (frames : List ActionRelayFrame) : Nat :=
  frames.countP fun f => f.isAckReject

/-- Number of `ActionResult` frames delivered. -/
def countResult (frames : List ActionRelayFrame) : Nat :=
  frames.countP fun f => f.isResult

/-! Part: Whole-map view of the hub (claims C2, C4)

For these claims the hub is observed through the `primary_game_sender` slot
and the `pending_actions` map.  Each pending entry carries the list of frames
delivered on its reply channel so far; a plain `Nat` token stands for a reply
sender where only identity matters. -/

/-- Rust `fail_all_pending` as it acts on the drained `(request_id, reply_tx)`
pairs: for each entry, synthesise the reject ack and the timeout result and
send both on its channel (in that order).  Returns the channels with the two
frames appended. -/
def failAllPending (reason : String) :
    List (String × List ActionRelayFrame) → List (String × List ActionRelayFrame)
  | [] => []
  | (request_id, chan) :: rest =>
      let ack : ActionAck :=
        { request_id := request_id, accepted := false, reason := reason }
      let result : ActionResult :=
        { request_id := request_id, status := ActionStatus.timeout
          detail := reason, final_state_version := 0 }
      (request_id,
        chan ++ [ActionRelayFrame.ack ack] ++ [ActionRelayFrame.result result]) ::
        failAllPending reason rest

/-- Hub state for `detach_primary_game_sender`: the sender slot (tracked only
as attached or not) and the pending map with each entry's delivered frames. -/
structure RelayHubPending where
  primary_attached : Bool
  pending : List (String × List ActionRelayFrame)
deriving DecidableEq, Repr

/-- Rust `RelayHub::detach_primary_game_sender`: clear the slot, then
`fail_all_pending("primary game client disconnected")`, which drains
`pending_actions` and sends the two synthesised frames per drained entry.
Returns the new hub state and the drained channels with their final frame
lists. -/
def detachPrimaryGameSender (h : RelayHubPending) :
    RelayHubPending × List (String × List ActionRelayFrame) :=
  let cleared : RelayHubPending := { h with primary_attached := false }
  ({ cleared with pending := [] },
   failAllPending "primary game client disconnected" cleared.pending)

/-! Part: Telemetry rate limiting (claim C3) -/

/-- Rust `pb::TelemetryFrame` (fields the bridge reads). -/
structure TelemetryFrame where
  state_version : Nat
  dimension : Nat
  hp : Nat
  hunger : Nat
deriving DecidableEq, Repr

/-- The hub state touched by `publish_telemetry`: the atomic
`last_relay_mono_ms`, the latched `watch` value, and a counter of
`send_replace` calls (one per observable broadcast update). -/
structure TelemetryHub where
  last_relay_mono_ms : Nat
  slot : Option TelemetryFrame
  updates : Nat
deriving DecidableEq, Repr

/-- Hub telemetry state as built by `RelayHub::new`: `last_relay_mono_ms`
starts at `0` and the `watch` channel is latched to `None`.  The relay's
monotonic clock (`relay.rs::mono_ms`) measures time since its own first call,
so the first `publish_telemetry` call observes `now = 0`. -/
def telemetryHubInit : TelemetryHub :=
  { last_relay_mono_ms := 0, slot := none, updates := 0 }

/-- Rust `RelayHub::publish_telemetry` (`min_relay_interval_ms` is the config
field; `now` is the value of `mono_ms()` at the call). -/
def publishTelemetry (min_relay_interval_ms : Nat) (h : TelemetryHub)
    (now : Nat) (t : TelemetryFrame) : TelemetryHub :=
  if 0 < min_relay_interval_ms then
    if now - h.last_relay_mono_ms < min_relay_interval_ms then h
    else { last_relay_mono_ms := now, slot := some t, updates := h.updates + 1 }
  else
    { h with slot := some t, updates := h.updates + 1 }

/-! Part: Action enqueue (claim C4) -/

/-- Rust `pb::ActionRequest` (fields `enqueue_action` reads). -/
structure ActionRequest where
  request_id : String
  target_agent_id : String
deriving DecidableEq, Repr

/-- Rust `s.trim().is_empty()`: true iff every character is
whitespace. -/
def trimIsEmpty (s : String) : Bool :=
  s.data.all fun c => c.isWhitespace

/-- Outcome of `tokio::time::timeout(_, primary_sender.send(req))`. -/
inductive SendOutcome
  | ok
  | closed
  | timedOut
deriving DecidableEq, Repr

/-- The error cases of `RelayHub::enqueue_action` (`anyhow::bail!` sites). -/
inductive EnqueueError
  | emptyRequestId
  | targetMismatch
  | noPrimary
  | queueClosed
  | enqueueTimeout
deriving DecidableEq, Repr

/-- Hub state for `enqueue_action`: the sender slot and the pending map,
with reply senders as tokens. -/
structure RelayHubActions where
  primary_attached : Bool
  pending : List (String × Nat)
deriving DecidableEq, Repr

/-- Rust `RelayHub::enqueue_action`, transcribed branch by branch
(`primary_game_agent_id` is the config field; `send` is the outcome of the
timed channel send). -/
def enqueueAction (primary_game_agent_id : String) (h : RelayHubActions)
    (req : ActionRequest) (reply_tx : Nat) (send : SendOutcome) :
    RelayHubActions × Except EnqueueError Unit :=
  if trimIsEmpty req.request_id then
    (h, Except.error EnqueueError.emptyRequestId)
  else if !trimIsEmpty req.target_agent_id
      && !(req.target_agent_id == primary_game_agent_id) then
    (h, Except.error EnqueueError.targetMismatch)
  else if !h.primary_attached then
    (h, Except.error EnqueueError.noPrimary)
  else
    let h1 : RelayHubActions :=
      { h with pending := ActionLedger.insertAssoc h.pending req.request_id reply_tx }
    match send with
    | SendOutcome.ok => (h1, Except.ok ())
    | SendOutcome.closed =>
        ({ h1 with pending := ActionLedger.removeAssoc h1.pending req.request_id },
         Except.error EnqueueError.queueClosed)
    | SendOutcome.timedOut =>
        ({ h1 with pending := ActionLedger.removeAssoc h1.pending req.request_id },
         Except.error EnqueueError.enqueueTimeout)

/-! Part: Handshake (`mvp1_bridge_server/src/ws.rs`, claim C8)

The capability ids are `i32` values of the generated `pb::Capability` enum
(schema outside `src/`); only their distinctness matters to the handshake
logic, so they are modelled as distinct naturals. -/

/-- Rust `pb::Capability as i32` values used by `ws.rs`. -/
def capTelemetryV1 : Nat := 1
/-- Rust `pb::Capability as i32` values used by `ws.rs`. -/
def capTimesyncV1 : Nat := 2
/-- Rust `pb::Capability as i32` values used by `ws.rs`. -/
def capActionsV1 : Nat := 3
/-- Rust `pb::Capability as i32` values used by `ws.rs`. -/
def capHelloAckV1 : Nat := 4

/-- Rust `SERVER_NEGOTIABLE_CAPABILITIES` from `ws.rs`. -/
def serverNegotiableCapabilities : List Nat :=
  [capTelemetryV1, capTimesyncV1, capActionsV1, capHelloAckV1]

/-- Rust `pb::PeerRole` (decoded; `from_i32(..).unwrap_or(Unspecified)` is folded
into the decoded value). -/
inductive PeerRole
  | unspecified
  | gameClient
  | orchestrator
  | bridgeServer
deriving DecidableEq, Repr

/-- Rust `pb::Hello` (fields `ws.rs` reads and writes). -/
structure Hello where
  agent_id : String
  role : PeerRole
  capabilities : List Nat
  client_version : String
  handshake_id : String
deriving DecidableEq, Repr

/-- Rust `pb::HelloAck`. -/
structure HelloAck where
  handshake_id : String
  accepted : Bool
  reason : String
  negotiated_capabilities : List Nat
  server_version : String
deriving DecidableEq, Repr

/-- The handshake-phase outbound payloads of the bridge (`HelloAck`, legacy
`Hello` reply, or an `ErrorFrame`). -/
inductive HandshakePayload
  | helloAck (a : HelloAck)
  | hello (h : Hello)
  | errorFrame (code : Nat) (message : String) (correlation_id : String)
deriving DecidableEq, Repr

/-- Rust `ErrorCode::ErrorCodeUnauthorized as i32` (value from the generated
schema; only its identity matters here). -/
def errorCodeUnauthorized : Nat := 3

/-- Rust `negotiated_capabilities` from `ws.rs`. -/
def negotiatedCapabilities (peer_caps : List Nat) : List Nat :=
  serverNegotiableCapabilities.filter fun cap => peer_caps.contains cap

/-- Rust `SessionState::supports_hello_ack`. -/
def supportsHelloAck (peer_caps : List Nat) : Bool :=
  peer_caps.any fun cap => cap == capHelloAckV1

/-- Rust `send_handshake_ok`: a `HelloAck` for peers advertising
`CAP_HELLO_ACK_V1`, else the legacy `Hello` reply. -/
def sendHandshakeOk (use_hello_ack : Bool) (peer_caps : List Nat)
    (handshake_id : String) : HandshakePayload :=
  if use_hello_ack then
    HandshakePayload.helloAck
      { handshake_id := handshake_id
        accepted := true
        reason := "ok"
        negotiated_capabilities := negotiatedCapabilities peer_caps
        server_version := "miqbot-bridge-server/0.3.0" }
  else
    HandshakePayload.hello
      { agent_id := "bridge"
        role := PeerRole.bridgeServer
        capabilities := [capTelemetryV1, capTimesyncV1, capActionsV1]
        client_version := "miqbot-bridge-server/0.3.0"
        handshake_id := handshake_id }

/-- Rust `send_handshake_reject` (`uuid` stands for the fresh UUID of the
`send_error` correlation id on the legacy path). -/
def sendHandshakeReject (use_hello_ack : Bool) (handshake_id reason uuid : String) :
    HandshakePayload :=
  if use_hello_ack then
    HandshakePayload.helloAck
      { handshake_id := handshake_id
        accepted := false
        reason := reason
        negotiated_capabilities := []
        server_version := "miqbot-bridge-server/0.3.0" }
  else
    HandshakePayload.errorFrame errorCodeUnauthorized reason
      ("hello-reject" ++ "-" ++ uuid)

/-- Environment outcomes the role dispatch depends on (state of the hub when
this session's handshake runs). -/
structure HandshakeEnv where
  attach_fails : Bool
  orch_allowed : Bool
  orch_limit_reached : Bool
deriving DecidableEq, Repr

/-- The handshake reply `run_ws_session` sends after decoding `hello`
(lines 143-254 of `ws.rs`): any client-supplied `hello.handshake_id` is only
logged; `handshake_id` is rebound to `st.session_id` before any frame is
built.  `session_id` is the server-generated session UUID, `uuid` the fresh
UUID a legacy reject would use. -/
def handshakeReply (primary_game_agent_id : String) (env : HandshakeEnv)
    (session_id uuid : String) (hello : Hello) : HandshakePayload :=
  let use_hello_ack := supportsHelloAck hello.capabilities
  let handshake_id := session_id
  match hello.role with
  | PeerRole.gameClient =>
      if hello.agent_id == primary_game_agent_id && env.attach_fails then
        sendHandshakeReject use_hello_ack handshake_id
          "primary game sender is unavailable" uuid
      else
        sendHandshakeOk use_hello_ack hello.capabilities handshake_id
  | PeerRole.orchestrator =>
      if !env.orch_allowed then
        sendHandshakeReject use_hello_ack handshake_id
          "orchestrator subscriptions are disabled" uuid
      else if env.orch_limit_reached then
        sendHandshakeReject use_hello_ack handshake_id
          "orchestrator subscription limit reached" uuid
      else
        sendHandshakeOk use_hello_ack hello.capabilities handshake_id
  | _ =>
      sendHandshakeReject use_hello_ack handshake_id "unsupported peer role" uuid

/-- The fields of `SessionState` the handshake derives from `hello` (every
later outbound frame of the session is a function of this state, the hub and
later inputs — never of the decoded `hello` again). -/
structure SessionStateAfterHello where
  session_id : String
  agent_id : String
  peer_role : PeerRole
  peer_caps : List Nat
  is_primary_game : Bool
deriving DecidableEq, Repr

/-- How `run_ws_session` populates `SessionState` from `hello` (lines 143-145
and 184 of `ws.rs`). -/
def sessionStateAfterHello (primary_game_agent_id : String) (env : HandshakeEnv)
    (session_id : String) (hello : Hello) : SessionStateAfterHello :=
  { session_id := session_id
    agent_id := hello.agent_id
    peer_role := hello.role
    peer_caps := hello.capabilities
    is_primary_game :=
      hello.role == PeerRole.gameClient
        && hello.agent_id == primary_game_agent_id
        && !env.attach_fails }

/-- The `handshake_id` carried by a handshake payload, if any. -/
def handshakePayloadId : HandshakePayload → Option String
  | HandshakePayload.helloAck a => some a.handshake_id
  | HandshakePayload.hello h => some h.handshake_id
  | HandshakePayload.errorFrame _ _ _ => none

/-- Invariant of one pending entry's lifecycle: while the entry is still
pending no terminal frame has been delivered, and never more than one
reject-ack and one result are delivered. -/
def EntryInv (s : EntryState) : Prop :=
  (s.present = true → countAckReject s.frames = 0 ∧ countResult s.frames = 0) ∧
  countAckReject s.frames ≤ 1 ∧ countResult s.frames ≤ 1

/-! Part: Theorems -/

theorem countTerminal_eq (frames : List ActionRelayFrame) :
    countTerminal frames = countAckReject frames + countResult frames := by
  induction frames with
  | nil => simp [countTerminal, countAckReject, countResult]
  | cons f rest ih =>
      cases f with
      | ack a =>
          simp [countTerminal, countAckReject, countResult, List.countP_cons,
            ActionRelayFrame.isTerminal, ActionRelayFrame.isAckReject,
            ActionRelayFrame.isResult] at ih ⊢
          omega
      | result r =>
          simp [countTerminal, countAckReject, countResult, List.countP_cons,
            ActionRelayFrame.isTerminal, ActionRelayFrame.isAckReject,
            ActionRelayFrame.isResult] at ih ⊢
          omega

theorem countAckReject_append (a b : List ActionRelayFrame) :
    countAckReject (a ++ b) = countAckReject a + countAckReject b :=
  List.countP_append _ a b

theorem countResult_append (a b : List ActionRelayFrame) :
    countResult (a ++ b) = countResult a + countResult b :=
  List.countP_append _ a b

theorem countAckReject_singleton_ack (rid reason : String) (acc : Bool) :
    countAckReject [ActionRelayFrame.ack ⟨rid, acc, reason⟩] = if acc then 0 else 1 := by
  cases acc <;> rfl

theorem countResult_singleton_ack (rid reason : String) (acc : Bool) :
    countResult [ActionRelayFrame.ack ⟨rid, acc, reason⟩] = 0 := by
  cases acc <;> rfl

theorem countAckReject_singleton_result (r : ActionResult) :
    countAckReject [ActionRelayFrame.result r] = 0 := rfl

theorem countResult_singleton_result (r : ActionResult) :
    countResult [ActionRelayFrame.result r] = 1 := rfl

theorem countAckReject_nil : countAckReject [] = 0 := rfl

theorem countAckReject_pair (rid reason : String) (r : ActionResult) :
    countAckReject
      [ActionRelayFrame.ack ⟨rid, false, reason⟩, ActionRelayFrame.result r] = 1 := rfl

theorem countResult_pair (rid reason : String) (r : ActionResult) :
    countResult
      [ActionRelayFrame.ack ⟨rid, false, reason⟩, ActionRelayFrame.result r] = 1 := rfl

theorem countResult_nil : countResult [] = 0 := rfl

theorem entryInv_of_closed (fr L : List ActionRelayFrame)
    (hza : countAckReject fr = 0) (hzr : countResult fr = 0)
    (hA : countAckReject L ≤ 1) (hR : countResult L ≤ 1) :
    EntryInv { present := false, frames := fr ++ L } := by
  refine ⟨fun hpres => by simp at hpres, ?_, ?_⟩
  · rw [countAckReject_append, hza]; omega
  · rw [countResult_append, hzr]; omega

theorem entryInv_step (rid : String) (s : EntryState) (op : EntryOp)
    (h : EntryInv s) : EntryInv (stepEntry rid s op) := by
  obtain ⟨h1, h2, h3⟩ := h
  by_cases hp : s.present = true
  · obtain ⟨hza, hzr⟩ := h1 hp
    cases op with
    | routeAck accepted reason sendOk =>
        cases accepted with
        | false =>
            have hstep : stepEntry rid s (EntryOp.routeAck false reason sendOk) =
                { present := false,
                  frames := s.frames ++
                    (if sendOk then [ActionRelayFrame.ack ⟨rid, false, reason⟩] else []) } := by
              simp [stepEntry, hp]
            rw [hstep]
            refine entryInv_of_closed s.frames _ hza hzr ?_ ?_
            · cases sendOk <;>
                simp [countAckReject_nil, countAckReject_singleton_ack]
            · cases sendOk <;>
                simp [countResult_nil, countResult_singleton_ack]
        | true =>
            cases sendOk with
            | true =>
                have hstep : stepEntry rid s (EntryOp.routeAck true reason true) =
                    { present := true,
                      frames := s.frames ++ [ActionRelayFrame.ack ⟨rid, true, reason⟩] } := by
                  simp [stepEntry, hp]
                rw [hstep]
                have hA : countAckReject (s.frames ++ [ActionRelayFrame.ack ⟨rid, true, reason⟩]) = 0 := by
                  rw [countAckReject_append, hza, countAckReject_singleton_ack]; rfl
                have hR : countResult (s.frames ++ [ActionRelayFrame.ack ⟨rid, true, reason⟩]) = 0 := by
                  rw [countResult_append, hzr, countResult_singleton_ack]
                exact ⟨fun _ => ⟨hA, hR⟩, by rw [hA]; omega, by rw [hR]; omega⟩
            | false =>
                have hstep : stepEntry rid s (EntryOp.routeAck true reason false) =
                    { present := false, frames := s.frames } := by
                  simp [stepEntry, hp]
                rw [hstep]
                exact ⟨fun hpres => by simp at hpres, h2, h3⟩
    | routeResult status detail fsv sendOk =>
        have hstep : stepEntry rid s (EntryOp.routeResult status detail fsv sendOk) =
            { present := false,
              frames := s.frames ++
                (if sendOk then [ActionRelayFrame.result ⟨rid, status, detail, fsv⟩] else []) } := by
          simp [stepEntry, hp]
        rw [hstep]
        refine entryInv_of_closed s.frames _ hza hzr ?_ ?_
        · cases sendOk <;>
            simp [countAckReject_nil, countAckReject_singleton_result]
        · cases sendOk <;>
            simp [countResult_nil, countResult_singleton_result]
    | detach sendOkAck sendOkResult =>
        have hstep : stepEntry rid s (EntryOp.detach sendOkAck sendOkResult) =
            { present := false,
              frames := s.frames ++
                ((if sendOkAck then
                    [ActionRelayFrame.ack ⟨rid, false, "primary game client disconnected"⟩]
                  else []) ++
                 (if sendOkResult then
                    [ActionRelayFrame.result
                      ⟨rid, ActionStatus.timeout, "primary game client disconnected", 0⟩]
                  else [])) } := by
          simp [stepEntry, hp]
        rw [hstep]
        refine entryInv_of_closed s.frames _ hza hzr ?_ ?_
        · cases sendOkAck <;> cases sendOkResult <;>
            simp [countAckReject_append, countAckReject_nil, countAckReject_pair,
              countAckReject_singleton_ack, countAckReject_singleton_result]
        · cases sendOkAck <;> cases sendOkResult <;>
            simp [countResult_append, countResult_nil, countResult_pair,
              countResult_singleton_ack, countResult_singleton_result]
  · have hp' : s.present = false := by
      revert hp
      cases s.present <;> simp
    have hstep : stepEntry rid s op = s := by
      cases op <;> simp [stepEntry, hp']
    rw [hstep]
    exact ⟨h1, h2, h3⟩

theorem entryInv_runEntry (rid : String) (ops : List EntryOp) (s : EntryState)
    (h : EntryInv s) : EntryInv (runEntry rid s ops) := by
  induction ops generalizing s with
  | nil => exact h
  | cons op rest ih =>
      have hstep := entryInv_step rid s op h
      simpa [runEntry, List.foldl] using ih (stepEntry rid s op) hstep

/-- C1, counterexample: the claim says every pending entry's reply channel
receives at most one terminal frame (reject-ack or result) under every
interleaving of `route_action_ack`, `route_action_result` and
`detach_primary_game_sender`.  A single `detach_primary_game_sender` with one
pending entry delivers two terminal frames on that entry's channel — the
synthesised `ActionAck{accepted=false}` and the synthesised
`ActionResult{status=timeout}` from `fail_all_pending`. -/
theorem claim_C1_counterexample :
    ¬ countTerminal (runEntry "r1" entryInit [EntryOp.detach true true]).frames ≤ 1 := by
  decide

/-- C1 (amended): over every interleaving of `route_action_ack`,
`route_action_result` and `detach_primary_game_sender` acting on an entry
inserted into `pending_actions`, the entry's reply channel receives at most
one `ActionAck{accepted=false}` and at most one `ActionResult` — hence at
most two terminal frames, the pair arising only from the detach path, which
synthesises a reject-ack followed by a timeout result for the entry. -/
theorem claim_C1_amended (rid : String) (ops : List EntryOp) :
    countAckReject (runEntry rid entryInit ops).frames ≤ 1 ∧
    countResult (runEntry rid entryInit ops).frames ≤ 1 ∧
    countTerminal (runEntry rid entryInit ops).frames ≤ 2 := by
  have hinit : EntryInv entryInit := by
    refine ⟨fun _ => ⟨rfl, rfl⟩, ?_, ?_⟩ <;> simp [entryInit, countAckReject, countResult]
  obtain ⟨-, h2, h3⟩ := entryInv_runEntry rid ops entryInit hinit
  refine ⟨h2, h3, ?_⟩
  rw [countTerminal_eq]
  omega

theorem mem_failAllPending (reason : String)
    (l : List (String × List ActionRelayFrame)) (rid : String)
    (chan : List ActionRelayFrame) (hmem : (rid, chan) ∈ l) :
    (rid, chan ++
        [ActionRelayFrame.ack ⟨rid, false, reason⟩,
         ActionRelayFrame.result ⟨rid, ActionStatus.timeout, reason, 0⟩]) ∈
      failAllPending reason l := by
  induction l with
  | nil => cases hmem
  | cons hd tl ih =>
      obtain ⟨k, c⟩ := hd
      cases hmem with
      | head =>
          simp [failAllPending]
      | tail _ hmem =>
          simp only [failAllPending]
          exact List.mem_cons_of_mem _ (ih hmem)

/-- C2: `detach_primary_game_sender` clears the primary sender slot and fails
every pending action: afterwards `pending_actions` is empty, and every entry
that was pending had an `ActionAck{accepted=false, reason="primary game
client disconnected"}` followed by an
`ActionResult{status=timeout, detail=reason, final_state_version=0}` appended
to its reply channel's delivery sequence. -/
theorem claim_C2 (h : RelayHubPending) :
    (detachPrimaryGameSender h).1.primary_attached = false ∧
    (detachPrimaryGameSender h).1.pending = [] ∧
    ∀ rid chan, (rid, chan) ∈ h.pending →
      (rid, chan ++
          [ActionRelayFrame.ack ⟨rid, false, "primary game client disconnected"⟩,
           ActionRelayFrame.result
             ⟨rid, ActionStatus.timeout, "primary game client disconnected", 0⟩]) ∈
        (detachPrimaryGameSender h).2 := by
  refine ⟨rfl, rfl, ?_⟩
  intro rid chan hmem
  exact mem_failAllPending "primary game client disconnected" h.pending rid chan hmem

/-- Witness for C2 at a concrete hub with one pending entry. -/
theorem claim_C2_witness :
    (detachPrimaryGameSender ⟨true, [("r1", [])]⟩).1.pending = [] ∧
    ("r1",
      [ActionRelayFrame.ack ⟨"r1", false, "primary game client disconnected"⟩,
       ActionRelayFrame.result
         ⟨"r1", ActionStatus.timeout, "primary game client disconnected", 0⟩]) ∈
      (detachPrimaryGameSender ⟨true, [("r1", [])]⟩).2 := by
  refine ⟨(claim_C2 ⟨true, [("r1", [])]⟩).2.1, ?_⟩
  have := (claim_C2 ⟨true, [("r1", [])]⟩).2.2 "r1" [] (by simp)
  simpa using this

/-- C3, counterexample: the claim says two `publish_telemetry` calls within
`min_relay_interval_ms` of each other produce exactly one observable
broadcast update, including when the first of the two is the first call ever
made since hub construction.  `RelayHub::new` initialises
`last_relay_mono_ms` to 0 and `relay.rs::mono_ms` measures from its own first
call, so the first call observes `now = 0`; with
`min_relay_interval_ms = 100`, calls at relay-clock times 0 and 50 are both
rate-limit-dropped and produce zero updates, not one. -/
theorem claim_C3_counterexample :
    (publishTelemetry 100 (publishTelemetry 100 telemetryHubInit 0 ⟨1, 0, 20, 20⟩)
        50 ⟨2, 0, 20, 20⟩).updates = 0 ∧ (0 : Nat) ≠ 1 := by
  constructor
  · rfl
  · decide

theorem publishTelemetry_drop (i : Nat) (h : TelemetryHub) (now : Nat)
    (t : TelemetryFrame) (hpos : 0 < i)
    (hlt : now - h.last_relay_mono_ms < i) :
    publishTelemetry i h now t = h := by
  unfold publishTelemetry
  rw [if_pos hpos, if_pos hlt]

theorem publishTelemetry_pass (i : Nat) (h : TelemetryHub) (now : Nat)
    (t : TelemetryFrame) (hpos : 0 < i)
    (hge : ¬ now - h.last_relay_mono_ms < i) :
    publishTelemetry i h now t =
      { last_relay_mono_ms := now, slot := some t, updates := h.updates + 1 } := by
  unfold publishTelemetry
  rw [if_pos hpos, if_neg hge]

/-- C3 (amended): with `min_relay_interval_ms > 0`, two `publish_telemetry`
calls at monotonic times `t1 ≤ t2` with `t2 - t1 < min_relay_interval_ms`
produce at most one observable broadcast update; exactly one when the first
call is itself not rate-limited against the stored `last_relay_mono_ms`
(initially 0); and zero — with the hub left completely unchanged — when both
calls fall within the rate-limit window of the stored timestamp, as happens
when the first call is the first ever made and occurs within
`min_relay_interval_ms` of the relay clock origin. -/
theorem claim_C3_amended (interval : Nat) (h : TelemetryHub) (t1 t2 : Nat)
    (fa fb : TelemetryFrame) (hpos : 0 < interval) (hlt : t2 - t1 < interval) :
    (publishTelemetry interval (publishTelemetry interval h t1 fa) t2 fb).updates ≤
        h.updates + 1 ∧
    (interval ≤ t1 - h.last_relay_mono_ms →
      (publishTelemetry interval (publishTelemetry interval h t1 fa) t2 fb).updates =
        h.updates + 1) ∧
    (t1 - h.last_relay_mono_ms < interval → t2 - h.last_relay_mono_ms < interval →
      publishTelemetry interval (publishTelemetry interval h t1 fa) t2 fb = h) := by
  by_cases h1 : t1 - h.last_relay_mono_ms < interval
  · rw [publishTelemetry_drop interval h t1 fa hpos h1]
    by_cases h2 : t2 - h.last_relay_mono_ms < interval
    · rw [publishTelemetry_drop interval h t2 fb hpos h2]
      exact ⟨Nat.le_succ _, fun hc => absurd hc (by omega), fun _ _ => rfl⟩
    · rw [publishTelemetry_pass interval h t2 fb hpos h2]
      exact ⟨Nat.le_refl _, fun hc => absurd hc (by omega), fun _ hc => absurd hc h2⟩
  · rw [publishTelemetry_pass interval h t1 fa hpos h1]
    have hdrop : t2 -
        ({ last_relay_mono_ms := t1, slot := some fa, updates := h.updates + 1 } :
          TelemetryHub).last_relay_mono_ms < interval := hlt
    rw [publishTelemetry_drop interval _ t2 fb hpos hdrop]
    exact ⟨Nat.le_refl _, fun _ => rfl, fun hc _ => absurd hc h1⟩

/-- Witness for C3 (amended) at concrete inputs: interval 100, first call at
150 (passes), second at 200 (dropped): exactly one update. -/
theorem claim_C3_amended_witness :
    (0 : Nat) < 100 ∧ (200 : Nat) - 150 < 100 ∧
    (publishTelemetry 100 (publishTelemetry 100 telemetryHubInit 150 ⟨1, 0, 20, 20⟩)
        200 ⟨2, 0, 20, 20⟩).updates = 1 := by
  refine ⟨by decide, by decide, ?_⟩
  have h := claim_C3_amended 100 telemetryHubInit 150 200 ⟨1, 0, 20, 20⟩ ⟨2, 0, 20, 20⟩
    (by decide) (by decide)
  exact h.2.1 (by decide)

theorem removeAssoc_insertAssoc_of_not_mem {α : Type} (l : List (String × α))
    (k : String) (v : α) (hk : ∀ e ∈ l, e.1 ≠ k) :
    ActionLedger.removeAssoc (ActionLedger.insertAssoc l k v) k = l := by
  induction l with
  | nil => simp [ActionLedger.insertAssoc, ActionLedger.removeAssoc]
  | cons hd tl ih =>
      obtain ⟨k', v'⟩ := hd
      have hne : k' ≠ k := hk (k', v') (List.mem_cons_self _ _)
      have htl : ∀ e ∈ tl, e.1 ≠ k := fun e he => hk e (List.mem_cons_of_mem _ he)
      simp only [ActionLedger.insertAssoc, if_neg hne, ActionLedger.removeAssoc,
        List.filter_cons]
      have : (!(k' == k)) = true := by simp [hne]
      rw [if_pos this]
      have ihr := ih htl
      simp only [ActionLedger.removeAssoc] at ihr
      rw [ihr]

/-- C4, counterexample: the claim lists exactly three failure conditions —
`request_id` empty, `target_agent_id` neither empty nor the primary id, no
primary attached — and says that otherwise the request is inserted into
`pending_actions` and sent.  The code instead validates
`request_id.trim().is_empty()`: a whitespace-only `request_id` `" "` (which
is not the empty string, with an empty target and a primary attached, so none
of the claim's failure conditions holds) is rejected with
`request_id must not be empty` and nothing is ever inserted. -/
theorem claim_C4_counterexample :
    (" " : String) ≠ "" ∧
    (enqueueAction "agent-1" ⟨true, []⟩ ⟨" ", ""⟩ 7 SendOutcome.ok).2 =
      Except.error EnqueueError.emptyRequestId ∧
    (enqueueAction "agent-1" ⟨true, []⟩ ⟨" ", ""⟩ 7 SendOutcome.ok).1.pending = [] := by
  refine ⟨by decide, rfl, rfl⟩

/-- C4 (amended): `enqueue_action` fails without modifying `pending_actions`
when the whitespace-trimmed `request_id` is empty, when the trimmed
`target_agent_id` is non-empty and differs from `primary_game_agent_id`, or
when no primary sender is attached; otherwise it inserts
`(request_id, reply_tx)` into `pending_actions` before sending, and if the
send times out or the channel is closed the `request_id` entry is removed
again and an error is returned — so on every error path the map holds no
entry for `request_id`, and it ends exactly as it started whenever
`request_id` was not already pending. -/
theorem claim_C4_amended (pid : String) (h : RelayHubActions) (req : ActionRequest)
    (tx : Nat) (send : SendOutcome) :
    (trimIsEmpty req.request_id = true →
      enqueueAction pid h req tx send = (h, Except.error EnqueueError.emptyRequestId)) ∧
    (trimIsEmpty req.request_id = false → trimIsEmpty req.target_agent_id = false →
      req.target_agent_id ≠ pid →
      enqueueAction pid h req tx send = (h, Except.error EnqueueError.targetMismatch)) ∧
    (trimIsEmpty req.request_id = false →
      (trimIsEmpty req.target_agent_id = true ∨ req.target_agent_id = pid) →
      h.primary_attached = false →
      enqueueAction pid h req tx send = (h, Except.error EnqueueError.noPrimary)) ∧
    (trimIsEmpty req.request_id = false →
      (trimIsEmpty req.target_agent_id = true ∨ req.target_agent_id = pid) →
      h.primary_attached = true →
      (send = SendOutcome.ok →
        enqueueAction pid h req tx send =
          ({ h with pending := ActionLedger.insertAssoc h.pending req.request_id tx },
           Except.ok ())) ∧
      (send ≠ SendOutcome.ok →
        (enqueueAction pid h req tx send).2.isOk = false ∧
        (enqueueAction pid h req tx send).1.pending =
          ActionLedger.removeAssoc
            (ActionLedger.insertAssoc h.pending req.request_id tx) req.request_id ∧
        ((∀ e ∈ h.pending, e.1 ≠ req.request_id) →
          (enqueueAction pid h req tx send).1 = h))) := by
  refine ⟨?_, ?_, ?_, ?_⟩
  · intro hempty
    unfold enqueueAction
    rw [if_pos hempty]
  · intro hne htgt hmis
    unfold enqueueAction
    rw [if_neg (by simp [hne]), if_pos (by simp [htgt, hmis])]
  · intro hne htgt hnp
    unfold enqueueAction
    rw [if_neg (by simp [hne]),
      if_neg (by rcases htgt with htgt | htgt <;> simp [htgt]),
      if_pos (by simp [hnp])]
  · intro hne htgt hp
    have hunfold : ∀ sres,
        enqueueAction pid h req tx sres =
          (let h1 : RelayHubActions :=
            { h with pending := ActionLedger.insertAssoc h.pending req.request_id tx }
          match sres with
          | SendOutcome.ok => (h1, Except.ok ())
          | SendOutcome.closed =>
              ({ h1 with pending := ActionLedger.removeAssoc h1.pending req.request_id },
               Except.error EnqueueError.queueClosed)
          | SendOutcome.timedOut =>
              ({ h1 with pending := ActionLedger.removeAssoc h1.pending req.request_id },
               Except.error EnqueueError.enqueueTimeout)) := by
      intro sres
      unfold enqueueAction
      rw [if_neg (by simp [hne]),
        if_neg (by rcases htgt with htgt | htgt <;> simp [htgt]),
        if_neg (by simp [hp])]
    constructor
    · intro hok
      subst hok
      rw [hunfold]
    · intro hnok
      have hcases : send = SendOutcome.closed ∨ send = SendOutcome.timedOut := by
        cases send
        · exact absurd rfl hnok
        · exact Or.inl rfl
        · exact Or.inr rfl
      have hmain :
          (enqueueAction pid h req tx send).2.isOk = false ∧
          (enqueueAction pid h req tx send).1.pending =
            ActionLedger.removeAssoc
              (ActionLedger.insertAssoc h.pending req.request_id tx) req.request_id := by
        rcases hcases with hc | hc <;> subst hc <;> rw [hunfold] <;> exact ⟨rfl, rfl⟩
      refine ⟨hmain.1, hmain.2, ?_⟩
      intro hfresh
      have hrm := removeAssoc_insertAssoc_of_not_mem h.pending req.request_id tx hfresh
      rcases hcases with hc | hc <;> subst hc <;> rw [hunfold] <;>
        simp only [hrm]

/-- Witness for C4 (amended) at concrete inputs: the happy path inserts the
pending entry and succeeds. -/
theorem claim_C4_amended_witness :
    enqueueAction "agent-1" ⟨true, []⟩ ⟨"r1", ""⟩ 7 SendOutcome.ok =
      (⟨true, [("r1", 7)]⟩, Except.ok ()) := by
  have h := (claim_C4_amended "agent-1" ⟨true, []⟩ ⟨"r1", ""⟩ 7 SendOutcome.ok).2.2.2
    (by decide) (Or.inl (by decide)) rfl
  simpa using h.1 rfl

theorem assoc_value_unique {α : Type} (l : List (String × α))
    (hnd : (l.map Prod.fst).Nodup) {k : String} {a b : α}
    (ha : (k, a) ∈ l) (hb : (k, b) ∈ l) : a = b := by
  induction l with
  | nil => cases ha
  | cons hd tl ih =>
      obtain ⟨k', v'⟩ := hd
      simp only [List.map_cons, List.nodup_cons] at hnd
      obtain ⟨hknot, hndtl⟩ := hnd
      cases ha with
      | head =>
          cases hb with
          | head => rfl
          | tail _ hb' =>
              exact absurd (List.mem_map_of_mem Prod.fst hb') hknot
      | tail _ ha' =>
          cases hb with
          | head => exact absurd (List.mem_map_of_mem Prod.fst ha') hknot
          | tail _ hb' => exact ih hndtl ha' hb'

theorem mem_events_elim (l : List (String × InflightAction)) (now : Nat)
    (ev : TimeoutEvent)
    (hev : ev ∈ l.filterMap fun e =>
      (entryTimeout now e.2).map fun k => TimeoutEvent.mk e.1 k) :
    ∃ a, (ev.request_id, a) ∈ l ∧ entryTimeout now a = some ev.kind := by
  rw [List.mem_filterMap] at hev
  obtain ⟨e, hmem, heq⟩ := hev
  cases hee : entryTimeout now e.2 with
  | none => rw [hee] at heq; cases heq
  | some kx =>
      rw [hee] at heq
      have hev2 : TimeoutEvent.mk e.1 kx = ev := by simpa using heq
      refine ⟨e.2, ?_, ?_⟩
      · rw [← hev2]
        exact hmem
      · rw [← hev2]
        exact hee

theorem events_countP_le_one (l : List (String × InflightAction)) (now : Nat)
    (id : String) (hnd : (l.map Prod.fst).Nodup) :
    ((l.filterMap fun e =>
        (entryTimeout now e.2).map fun k => TimeoutEvent.mk e.1 k).countP
      fun e => e.request_id == id) ≤ 1 := by
  induction l with
  | nil => simp
  | cons hd tl ih =>
      obtain ⟨k', a'⟩ := hd
      simp only [List.map_cons, List.nodup_cons] at hnd
      obtain ⟨hknot, hndtl⟩ := hnd
      have htl := ih hndtl
      cases hto : entryTimeout now a' with
      | none =>
          simpa [List.filterMap_cons, hto] using htl
      | some kk =>
          simp only [List.filterMap_cons, hto, Option.map_some']
          rw [List.countP_cons]
          by_cases hk : k' = id
          · subst hk
            have hzero :
                ((tl.filterMap fun e =>
                    (entryTimeout now e.2).map fun k => TimeoutEvent.mk e.1 k).countP
                  fun e => e.request_id == k') = 0 := by
              rw [List.countP_eq_zero]
              intro ev hev
              obtain ⟨b, hbmem, -⟩ := mem_events_elim tl now ev hev
              simp only [beq_iff_eq]
              intro hevid
              rw [hevid] at hbmem
              exact hknot (List.mem_map_of_mem Prod.fst hbmem)
            rw [hzero]
            simp
          · have hne : ((TimeoutEvent.mk k' kk).request_id == id) = false := by
              simp [hk]
            rw [hne]
            simpa using htl

/-- C5: for every ledger state and every `now`, `poll_timeouts(now)` emits an
`Ack` timeout and removes the entry iff the entry is unacked and past its ack
deadline; otherwise emits a `Result` timeout and removes the entry iff `now`
has reached the result deadline; entries satisfying neither stay in the
ledger untouched and produce no event; and each request id yields at most one
event per call. -/
theorem claim_C5 (l : ActionLedger) (now : Nat)
    (hnd : (l.inflight.map Prod.fst).Nodup) (id : String) (a : InflightAction)
    (hmem : (id, a) ∈ l.inflight) :
    ((a.acked = false ∧ a.ack_deadline_ms ≤ now) →
      TimeoutEvent.mk id TimeoutKind.ack ∈ (l.pollTimeouts now).1 ∧
      ∀ b, (id, b) ∉ (l.pollTimeouts now).2.inflight) ∧
    (¬(a.acked = false ∧ a.ack_deadline_ms ≤ now) → a.result_deadline_ms ≤ now →
      TimeoutEvent.mk id TimeoutKind.result ∈ (l.pollTimeouts now).1 ∧
      ∀ b, (id, b) ∉ (l.pollTimeouts now).2.inflight) ∧
    (¬(a.acked = false ∧ a.ack_deadline_ms ≤ now) → now < a.result_deadline_ms →
      (id, a) ∈ (l.pollTimeouts now).2.inflight ∧
      ∀ k, TimeoutEvent.mk id k ∉ (l.pollTimeouts now).1) ∧
    ((l.pollTimeouts now).1.countP fun e => e.request_id == id) ≤ 1 := by
  have hackv : a.acked = false ∧ a.ack_deadline_ms ≤ now →
      entryTimeout now a = some TimeoutKind.ack := by
    intro hc
    simp [entryTimeout, hc.1, hc.2]
  have hresv : ¬(a.acked = false ∧ a.ack_deadline_ms ≤ now) →
      a.result_deadline_ms ≤ now → entryTimeout now a = some TimeoutKind.result := by
    intro hc hr
    cases hacked : a.acked
    · have hna : ¬ a.ack_deadline_ms ≤ now := fun hle => hc ⟨hacked, hle⟩
      simp [entryTimeout, hacked, hna, hr]
    · simp [entryTimeout, hacked, hr]
  have hnonev : ¬(a.acked = false ∧ a.ack_deadline_ms ≤ now) →
      now < a.result_deadline_ms → entryTimeout now a = none := by
    intro hc hlt
    have hnr : ¬ a.result_deadline_ms ≤ now := by omega
    cases hacked : a.acked
    · have hna : ¬ a.ack_deadline_ms ≤ now := fun hle => hc ⟨hacked, hle⟩
      simp [entryTimeout, hacked, hna, hnr]
    · simp [entryTimeout, hacked, hnr]
  have hinev : ∀ k, entryTimeout now a = some k →
      TimeoutEvent.mk id k ∈ (l.pollTimeouts now).1 := by
    intro k hv
    exact List.mem_filterMap.mpr ⟨(id, a), hmem, by simp [hv]⟩
  have hnotkept : entryTimeout now a ≠ none →
      ∀ b, (id, b) ∉ (l.pollTimeouts now).2.inflight := by
    intro hne b hb
    have hb' := List.mem_filter.mp hb
    have hba : b = a := assoc_value_unique l.inflight hnd hb'.1 hmem
    rw [hba] at hb'
    have hb2 := hb'.2
    simp only [Option.isNone_iff_eq_none] at hb2
    exact hne hb2
  have hnoev : entryTimeout now a = none →
      ∀ k, TimeoutEvent.mk id k ∉ (l.pollTimeouts now).1 := by
    intro hnone k hk
    obtain ⟨b, hbmem, hbeq⟩ := mem_events_elim l.inflight now _ hk
    have hba : b = a := assoc_value_unique l.inflight hnd hbmem hmem
    rw [hba, hnone] at hbeq
    cases hbeq
  refine ⟨?_, ?_, ?_, events_countP_le_one l.inflight now id hnd⟩
  · intro hc
    have hv := hackv hc
    exact ⟨hinev _ hv, hnotkept (by rw [hv]; simp)⟩
  · intro hc hr
    have hv := hresv hc hr
    exact ⟨hinev _ hv, hnotkept (by rw [hv]; simp)⟩
  · intro hc hlt
    have hv := hnonev hc hlt
    refine ⟨List.mem_filter.mpr ⟨hmem, by simp [hv]⟩, hnoev hv⟩

/-- Witness for C5 at a concrete ledger: one unacked entry past its ack
deadline emits an `Ack` timeout and is removed. -/
theorem claim_C5_witness :
    TimeoutEvent.mk "r1" TimeoutKind.ack ∈
      (ActionLedger.pollTimeouts ⟨[("r1", ⟨100, 500, false⟩)]⟩ 150).1 ∧
    ("r1", (⟨100, 500, false⟩ : InflightAction)) ∉
      (ActionLedger.pollTimeouts ⟨[("r1", ⟨100, 500, false⟩)]⟩ 150).2.inflight := by
  have h := claim_C5 ⟨[("r1", ⟨100, 500, false⟩)]⟩ 150 (by simp) "r1"
    ⟨100, 500, false⟩ (by simp)
  exact ⟨(h.1 ⟨rfl, by decide⟩).1, (h.1 ⟨rfl, by decide⟩).2 _⟩

theorem popNextFromQueue_true_eq (queue : List SpeechJob) (now : Nat) :
    SpeechQueue.popNextFromQueue queue now true = (queue.head?, queue.tail) := by
  cases queue <;> simp [SpeechQueue.popNextFromQueue]

theorem popNextFromQueue_false_eq (queue : List SpeechJob) (now : Nat) :
    SpeechQueue.popNextFromQueue queue now false =
      ((queue.dropWhile fun j => decide (j.deadline_ms < now)).head?,
       (queue.dropWhile fun j => decide (j.deadline_ms < now)).tail) := by
  induction queue with
  | nil => simp [SpeechQueue.popNextFromQueue]
  | cons j rest ih =>
      by_cases hj : now ≤ j.deadline_ms
      · have hnlt : ¬ j.deadline_ms < now := by omega
        simp [SpeechQueue.popNextFromQueue, List.dropWhile_cons, hj, hnlt]
      · have hlt : j.deadline_ms < now := by omega
        simpa [SpeechQueue.popNextFromQueue, List.dropWhile_cons, hj, hlt] using ih

theorem head?_dropWhile_eq_find? (l : List SpeechJob) (now : Nat) :
    (l.dropWhile fun j => decide (j.deadline_ms < now)).head? =
      l.find? fun j => decide (now ≤ j.deadline_ms) := by
  induction l with
  | nil => simp
  | cons j rest ih =>
      by_cases hj : j.deadline_ms < now
      · have hnle : ¬ now ≤ j.deadline_ms := by omega
        simpa [List.dropWhile_cons, hj, List.find?_cons, hnle] using ih
      · have hle : now ≤ j.deadline_ms := by omega
        simp [List.dropWhile_cons, hj, List.find?_cons, hle]

theorem popNext_p0_cons (q : SpeechQueue) (now : Nat) (j : SpeechJob)
    (rest : List SpeechJob) (hq : q.p0 = j :: rest) :
    q.popNext now = (some j, { q with p0 := rest }) := by
  simp [SpeechQueue.popNext, SpeechQueue.popNextFromQueue, hq]

theorem popNext_p1_pop (q : SpeechQueue) (now : Nat) (x : SpeechJob)
    (xs : List SpeechJob) (hq0 : q.p0 = [])
    (hdw : (q.p1.dropWhile fun j => decide (j.deadline_ms < now)) = x :: xs) :
    q.popNext now = (some x, { q with p0 := [], p1 := xs }) := by
  simp [SpeechQueue.popNext, popNextFromQueue_true_eq, popNextFromQueue_false_eq,
    hq0, hdw]

theorem popNext_p2 (q : SpeechQueue) (now : Nat) (hq0 : q.p0 = [])
    (hdw1 : (q.p1.dropWhile fun j => decide (j.deadline_ms < now)) = []) :
    q.popNext now =
      ((q.p2.dropWhile fun j => decide (j.deadline_ms < now)).head?,
       { q with
         p0 := []
         p1 := []
         p2 := (q.p2.dropWhile fun j => decide (j.deadline_ms < now)).tail }) := by
  simp [SpeechQueue.popNext, popNextFromQueue_true_eq, popNextFromQueue_false_eq,
    hq0, hdw1]

/-- C6: `pop_next(now)` pops the front P0 job regardless of its deadline when
the P0 tier is non-empty; otherwise it returns the first P1 job whose
deadline has not passed, silently discarding the expired P1 front jobs;
otherwise the same for P2; it returns nothing exactly when all three tiers
are exhausted this way, and the remaining tiers are suffixes of the originals
(insertion order preserved). -/
theorem claim_C6 (q : SpeechQueue) (now : Nat) :
    (∀ j rest, q.p0 = j :: rest →
      (q.popNext now).1 = some j ∧ (q.popNext now).2 = { q with p0 := rest }) ∧
    (q.p0 = [] → (q.p1.find? fun j => decide (now ≤ j.deadline_ms)) ≠ none →
      (q.popNext now).1 = q.p1.find? (fun j => decide (now ≤ j.deadline_ms)) ∧
      (q.popNext now).2.p1 =
        (q.p1.dropWhile fun j => decide (j.deadline_ms < now)).tail ∧
      (q.popNext now).2.p2 = q.p2) ∧
    (q.p0 = [] → (q.p1.find? fun j => decide (now ≤ j.deadline_ms)) = none →
      (q.popNext now).1 = q.p2.find? (fun j => decide (now ≤ j.deadline_ms)) ∧
      (q.popNext now).2.p1 = []) ∧
    ((q.popNext now).1 = none ↔
      (q.p0 = [] ∧ (q.p1.find? fun j => decide (now ≤ j.deadline_ms)) = none ∧
       (q.p2.find? fun j => decide (now ≤ j.deadline_ms)) = none)) ∧
    ((q.popNext now).2.p0.IsSuffix q.p0 ∧
     (q.popNext now).2.p1.IsSuffix q.p1 ∧
     (q.popNext now).2.p2.IsSuffix q.p2) := by
  cases hq0 : q.p0 with
  | cons j rest =>
      have hpop := popNext_p0_cons q now j rest hq0
      rw [hpop]
      refine ⟨?_, ?_, ?_, ?_, ?_, ?_, ?_⟩
      · intro j' rest' hq0'
        injection hq0' with hj hrest
        subst hj
        subst hrest
        exact ⟨rfl, rfl⟩
      · intro h0 _
        cases h0
      · intro h0 _
        cases h0
      · constructor
        · intro hn
          simp at hn
        · rintro ⟨h0, -, -⟩
          cases h0
      · exact List.tail_suffix (j :: rest)
      · exact List.suffix_refl _
      · exact List.suffix_refl _
  | nil =>
      cases hdw1 : (q.p1.dropWhile fun j => decide (j.deadline_ms < now)) with
      | cons x xs =>
          have hpop := popNext_p1_pop q now x xs hq0 hdw1
          rw [hpop]
          have hfind1 : q.p1.find? (fun j => decide (now ≤ j.deadline_ms)) = some x := by
            rw [← head?_dropWhile_eq_find?, hdw1]
            rfl
          refine ⟨?_, ?_, ?_, ?_, ?_, ?_, ?_⟩
          · intro j' rest' h
            cases h
          · intro _ _
            exact ⟨by rw [hfind1], rfl, rfl⟩
          · intro _ hcontra
            rw [hfind1] at hcontra
            cases hcontra
          · constructor
            · intro hn
              simp at hn
            · rintro ⟨-, hf1, -⟩
              rw [hfind1] at hf1
              cases hf1
          · exact List.nil_suffix
          · exact (List.tail_suffix (x :: xs)).trans
              (hdw1 ▸ List.dropWhile_suffix (fun j => decide (j.deadline_ms < now)) (l := q.p1))
          · exact List.suffix_refl _
      | nil =>
          have hpop := popNext_p2 q now hq0 hdw1
          rw [hpop]
          have hfind1 : q.p1.find? (fun j => decide (now ≤ j.deadline_ms)) = none := by
            rw [← head?_dropWhile_eq_find?, hdw1]
            rfl
          refine ⟨?_, ?_, ?_, ?_, ?_, ?_, ?_⟩
          · intro j' rest' h
            cases h
          · intro _ hne
            exact absurd hfind1 hne
          · intro _ _
            exact ⟨head?_dropWhile_eq_find? q.p2 now, rfl⟩
          · constructor
            · intro hn
              refine ⟨rfl, hfind1, ?_⟩
              rw [← head?_dropWhile_eq_find?]
              exact hn
            · rintro ⟨-, -, hf2⟩
              rw [head?_dropWhile_eq_find?]
              exact hf2
          · exact List.nil_suffix
          · exact List.nil_suffix
          · exact (List.tail_suffix _).trans
              (List.dropWhile_suffix (fun j => decide (j.deadline_ms < now)) (l := q.p2))

/-- Witness for C6 at a concrete queue: with P0 non-empty the P0 front pops
even past its deadline, P1 and P2 untouched. -/
theorem claim_C6_witness :
    ((SpeechQueue.mk
        [⟨"a", "a", SpeechPriority.P0Safety, SpeechSource.ActionSafety, 0, 1, "a"⟩]
        [⟨"b", "b", SpeechPriority.P1ChatReply, SpeechSource.Telemetry, 0, 99, "b"⟩]
        [] 8 8 8).popNext 50).1 =
      some ⟨"a", "a", SpeechPriority.P0Safety, SpeechSource.ActionSafety, 0, 1, "a"⟩ :=
  ((claim_C6 (SpeechQueue.mk
      [⟨"a", "a", SpeechPriority.P0Safety, SpeechSource.ActionSafety, 0, 1, "a"⟩]
      [⟨"b", "b", SpeechPriority.P1ChatReply, SpeechSource.Telemetry, 0, 99, "b"⟩]
      [] 8 8 8) 50).1
    ⟨"a", "a", SpeechPriority.P0Safety, SpeechSource.ActionSafety, 0, 1, "a"⟩ [] rfl).1

theorem drainExpired_cons (j : SpeechJob) (rest : List SpeechJob) (now : Nat) :
    SpeechQueue.drainExpired (j :: rest) now =
      if !(decide (j.priority = SpeechPriority.P0Safety)) && decide (j.deadline_ms < now) then
        ((SpeechQueue.drainExpired rest now).1,
         ⟨j, "deadline_expired"⟩ :: (SpeechQueue.drainExpired rest now).2)
      else
        (j :: (SpeechQueue.drainExpired rest now).1,
         (SpeechQueue.drainExpired rest now).2) := rfl

theorem drainExpired_dropped (now : Nat) :
    ∀ (l : List SpeechJob), ∀ d ∈ (SpeechQueue.drainExpired l now).2,
      d.reason = "deadline_expired" ∧ d.job.priority ≠ SpeechPriority.P0Safety ∧
        d.job.deadline_ms < now := by
  intro l
  induction l with
  | nil => intro d hd; cases hd
  | cons j rest ih =>
      intro d hd
      rw [drainExpired_cons] at hd
      by_cases hcond : (!(decide (j.priority = SpeechPriority.P0Safety))
          && decide (j.deadline_ms < now)) = true
      · rw [if_pos hcond] at hd
        simp only [Bool.and_eq_true, Bool.not_eq_true', decide_eq_false_iff_not,
          decide_eq_true_eq] at hcond
        rcases List.mem_cons.mp hd with rfl | hd'
        · exact ⟨rfl, hcond.1, hcond.2⟩
        · exact ih d hd'
      · rw [if_neg hcond] at hd
        exact ih d hd

theorem drainExpired_keeps_p0 (now : Nat) :
    ∀ (l : List SpeechJob), (∀ j ∈ l, j.priority = SpeechPriority.P0Safety) →
      (SpeechQueue.drainExpired l now).1 = l := by
  intro l
  induction l with
  | nil => intro _; rfl
  | cons j rest ih =>
      intro hall
      have hj := hall j (List.mem_cons_self _ _)
      have htl := ih fun x hx => hall x (List.mem_cons_of_mem _ hx)
      rw [drainExpired_cons, if_neg (by simp [hj])]
      simp [htl]

/-- C7: no P0-safety job is ever removed with reason `deadline_expired`: on a
well-formed queue `drop_expired(now)` drops only non-P0 jobs whose deadline
has passed (all with reason `deadline_expired`), leaves the P0 sub-queue
intact, the P1/P2 tiers hold no P0 job, and `pop_next` either returns a P0
job or keeps it in the queue — it never silently discards one. -/
theorem claim_C7 (q : SpeechQueue) (now : Nat) (hwf : q.Wf) :
    (∀ d ∈ (q.dropExpired now).2,
      d.reason = "deadline_expired" ∧ d.job.priority ≠ SpeechPriority.P0Safety ∧
        d.job.deadline_ms < now) ∧
    (q.dropExpired now).1.p0 = q.p0 ∧
    (∀ j ∈ q.p1, j.priority ≠ SpeechPriority.P0Safety) ∧
    (∀ j ∈ q.p2, j.priority ≠ SpeechPriority.P0Safety) ∧
    (∀ j ∈ q.p0, (q.popNext now).1 = some j ∨ j ∈ (q.popNext now).2.p0) := by
  obtain ⟨hwf0, hwf1, hwf2⟩ := hwf
  refine ⟨?_, ?_, ?_, ?_, ?_⟩
  · intro d hd
    simp only [SpeechQueue.dropExpired] at hd
    rcases List.mem_append.mp hd with hd' | hd'
    · rcases List.mem_append.mp hd' with hd'' | hd''
      · exact drainExpired_dropped now q.p0 d hd''
      · exact drainExpired_dropped now q.p1 d hd''
    · exact drainExpired_dropped now q.p2 d hd'
  · simp only [SpeechQueue.dropExpired]
    exact drainExpired_keeps_p0 now q.p0 hwf0
  · intro j hj
    rw [hwf1 j hj]
    intro hcontra
    cases hcontra
  · intro j hj
    rw [hwf2 j hj]
    intro hcontra
    cases hcontra
  · intro j hj
    cases hq0 : q.p0 with
    | nil => rw [hq0] at hj; cases hj
    | cons a rest =>
        rw [popNext_p0_cons q now a rest hq0]
        rw [hq0] at hj
        rcases List.mem_cons.mp hj with rfl | hj'
        · exact Or.inl rfl
        · exact Or.inr hj'

/-- Witness for C7 at a concrete well-formed queue: an expired P0 job stays
in the queue while an expired P1 job is dropped around it. -/
theorem claim_C7_witness :
    ((SpeechQueue.mk
        [⟨"a", "a", SpeechPriority.P0Safety, SpeechSource.ActionSafety, 0, 1, "a"⟩]
        [⟨"b", "b", SpeechPriority.P1ChatReply, SpeechSource.Telemetry, 0, 1, "b"⟩]
        [] 8 8 8).dropExpired 5).1.p0 =
      [⟨"a", "a", SpeechPriority.P0Safety, SpeechSource.ActionSafety, 0, 1, "a"⟩] :=
  (claim_C7 (SpeechQueue.mk
      [⟨"a", "a", SpeechPriority.P0Safety, SpeechSource.ActionSafety, 0, 1, "a"⟩]
      [⟨"b", "b", SpeechPriority.P1ChatReply, SpeechSource.Telemetry, 0, 1, "b"⟩]
      [] 8 8 8) 5 (by refine ⟨?_, ?_, ?_⟩ <;> simp)).2.1

/-- C9: the duplicate-cooldown drop applies to every priority, P0-safety
included: whenever the whitespace-stripped normalisation of the text equals
the stored `last_line` and `now - last_line_ms < duplicate_cooldown_ms`,
`enqueue_speech` returns with the actor state unchanged and no queue push —
the job (for any priority and source, in particular a P0 safety line) never
enters the speech queue. -/
theorem claim_C9 (cooldown : Nat) (st : ActorSpeechState) (jobId text : String)
    (priority : SpeechPriority) (source : SpeechSource)
    (deadline_delta now : Nat)
    (hlast : st.last_line = some (normalizeDedupeKey text))
    (hcool : now - st.last_line_ms < cooldown) :
    enqueueSpeech cooldown st jobId text priority source deadline_delta now =
      (st, none) := by
  simp [enqueueSpeech, hlast, hcool]

/-- Witness for C9: a concrete P0 safety line whose normalised text matches
the stored `last_line` within the cooldown is silently dropped. -/
theorem claim_C9_witness :
    enqueueSpeech 5000 ⟨SpeechQueue.new 2 2 2, some "abc", 8⟩ "job-1" " a b c "
        SpeechPriority.P0Safety SpeechSource.ActionSafety 100 10 =
      (⟨SpeechQueue.new 2 2 2, some "abc", 8⟩, none) :=
  claim_C9 5000 ⟨SpeechQueue.new 2 2 2, some "abc", 8⟩ "job-1" " a b c "
    SpeechPriority.P0Safety SpeechSource.ActionSafety 100 10 (by decide) (by decide)

theorem pushInto_spec (l : List SpeechJob) (cap : Nat) (job : SpeechJob) :
    (SpeechQueue.pushInto l cap job).1 =
      (if cap ≤ l.length then l.tail else l) ++ [job] ∧
    (SpeechQueue.pushInto l cap job).2 =
      (if cap ≤ l.length then
        l.head?.map fun old => ⟨old, "queue_overflow"⟩
       else none) := by
  unfold SpeechQueue.pushInto
  by_cases hc : cap ≤ l.length
  · simp only [if_pos hc]
    cases l <;> simp
  · simp only [if_neg hc]
    simp

theorem pushInto_length (l : List SpeechJob) (cap : Nat) (job : SpeechJob)
    (hcap : 1 ≤ cap) (hlen : l.length ≤ cap) :
    (SpeechQueue.pushInto l cap job).1.length ≤ cap := by
  rw [(pushInto_spec l cap job).1]
  by_cases hc : cap ≤ l.length
  · rw [if_pos hc]
    cases l with
    | nil => simpa using hcap
    | cons a rest =>
        simp only [List.tail_cons, List.length_append, List.length_cons,
          List.length_nil] at hlen ⊢
        omega
  · rw [if_neg hc]
    simp only [List.length_append, List.length_cons, List.length_nil]
    omega

theorem push_p0_eq (q : SpeechQueue) (job : SpeechJob)
    (hp : job.priority = SpeechPriority.P0Safety) :
    q.push job = ({ q with p0 := (SpeechQueue.pushInto q.p0 q.max_p0 job).1 },
                  (SpeechQueue.pushInto q.p0 q.max_p0 job).2) := by
  simp [SpeechQueue.push, hp]

theorem push_p1_eq (q : SpeechQueue) (job : SpeechJob)
    (hp : job.priority = SpeechPriority.P1ChatReply) :
    q.push job = ({ q with p1 := (SpeechQueue.pushInto q.p1 q.max_p1 job).1 },
                  (SpeechQueue.pushInto q.p1 q.max_p1 job).2) := by
  simp [SpeechQueue.push, hp]

theorem push_p2_eq (q : SpeechQueue) (job : SpeechJob)
    (hp : job.priority = SpeechPriority.P2Commentary) :
    q.push job = ({ q with p2 := (SpeechQueue.pushInto q.p2 q.max_p2 job).1 },
                  (SpeechQueue.pushInto q.p2 q.max_p2 job).2) := by
  simp [SpeechQueue.push, hp]

theorem push_preserves (q : SpeechQueue) (job : SpeechJob)
    (hc0 : 1 ≤ q.max_p0) (hc1 : 1 ≤ q.max_p1) (hc2 : 1 ≤ q.max_p2)
    (h0 : q.p0.length ≤ q.max_p0) (h1 : q.p1.length ≤ q.max_p1)
    (h2 : q.p2.length ≤ q.max_p2) :
    (q.push job).1.p0.length ≤ q.max_p0 ∧ (q.push job).1.p1.length ≤ q.max_p1 ∧
    (q.push job).1.p2.length ≤ q.max_p2 ∧
    (q.push job).1.max_p0 = q.max_p0 ∧ (q.push job).1.max_p1 = q.max_p1 ∧
    (q.push job).1.max_p2 = q.max_p2 := by
  cases hp : job.priority with
  | P0Safety =>
      rw [push_p0_eq q job hp]
      exact ⟨pushInto_length q.p0 q.max_p0 job hc0 h0, h1, h2, rfl, rfl, rfl⟩
  | P1ChatReply =>
      rw [push_p1_eq q job hp]
      exact ⟨h0, pushInto_length q.p1 q.max_p1 job hc1 h1, h2, rfl, rfl, rfl⟩
  | P2Commentary =>
      rw [push_p2_eq q job hp]
      exact ⟨h0, h1, pushInto_length q.p2 q.max_p2 job hc2 h2, rfl, rfl, rfl⟩

theorem pushAll_inv (jobs : List SpeechJob) :
    ∀ (q : SpeechQueue), 1 ≤ q.max_p0 → 1 ≤ q.max_p1 → 1 ≤ q.max_p2 →
      q.p0.length ≤ q.max_p0 → q.p1.length ≤ q.max_p1 → q.p2.length ≤ q.max_p2 →
      (q.pushAll jobs).p0.length ≤ q.max_p0 ∧
      (q.pushAll jobs).p1.length ≤ q.max_p1 ∧
      (q.pushAll jobs).p2.length ≤ q.max_p2 := by
  induction jobs with
  | nil =>
      intro q _ _ _ h0 h1 h2
      exact ⟨h0, h1, h2⟩
  | cons job rest ih =>
      intro q hc0 hc1 hc2 h0 h1 h2
      have hstep := push_preserves q job hc0 hc1 hc2 h0 h1 h2
      obtain ⟨hs0, hs1, hs2, hm0, hm1, hm2⟩ := hstep
      have hrec := ih (q.push job).1 (hm0 ▸ hc0) (hm1 ▸ hc1) (hm2 ▸ hc2)
        (hm0 ▸ hs0) (hm1 ▸ hs1) (hm2 ▸ hs2)
      have hfold : q.pushAll (job :: rest) = ((q.push job).1).pushAll rest := by
        simp [SpeechQueue.pushAll, List.foldl_cons]
      rw [hfold]
      exact ⟨hm0 ▸ hrec.1, hm1 ▸ hrec.2.1, hm2 ▸ hrec.2.2⟩

/-- C10: with all per-tier capacities at least 1, no push sequence ever makes
a tier exceed its capacity, and each individual push appends the new job at
the back of its priority's tier, evicts at most the single oldest job of that
tier (exactly when the tier is at or above capacity), and leaves the other
tiers untouched. -/
theorem claim_C10 (max0 max1 max2 : Nat) (jobs : List SpeechJob)
    (h0 : 1 ≤ max0) (h1 : 1 ≤ max1) (h2 : 1 ≤ max2) :
    (((SpeechQueue.new max0 max1 max2).pushAll jobs).p0.length ≤ max0 ∧
     ((SpeechQueue.new max0 max1 max2).pushAll jobs).p1.length ≤ max1 ∧
     ((SpeechQueue.new max0 max1 max2).pushAll jobs).p2.length ≤ max2) ∧
    ∀ (q : SpeechQueue) (job : SpeechJob),
      (q.push job).1.tier job.priority =
        (if q.tierCap job.priority ≤ (q.tier job.priority).length then
          (q.tier job.priority).tail
         else q.tier job.priority) ++ [job] ∧
      ((q.push job).2 =
        if q.tierCap job.priority ≤ (q.tier job.priority).length then
          (q.tier job.priority).head?.map fun old => ⟨old, "queue_overflow"⟩
        else none) ∧
      (∀ p, p ≠ job.priority → (q.push job).1.tier p = q.tier p) := by
  constructor
  · exact pushAll_inv jobs (SpeechQueue.new max0 max1 max2) h0 h1 h2
      (by simp [SpeechQueue.new]) (by simp [SpeechQueue.new]) (by simp [SpeechQueue.new])
  · intro q job
    cases hp : job.priority with
    | P0Safety =>
        refine ⟨?_, ?_, ?_⟩
        · simpa [SpeechQueue.push, hp, SpeechQueue.tier, SpeechQueue.tierCap]
            using (pushInto_spec q.p0 q.max_p0 job).1
        · simpa [SpeechQueue.push, hp, SpeechQueue.tier, SpeechQueue.tierCap]
            using (pushInto_spec q.p0 q.max_p0 job).2
        · intro p hne
          cases p <;> simp [SpeechQueue.push, hp, SpeechQueue.tier]
          exact absurd rfl hne
    | P1ChatReply =>
        refine ⟨?_, ?_, ?_⟩
        · simpa [SpeechQueue.push, hp, SpeechQueue.tier, SpeechQueue.tierCap]
            using (pushInto_spec q.p1 q.max_p1 job).1
        · simpa [SpeechQueue.push, hp, SpeechQueue.tier, SpeechQueue.tierCap]
            using (pushInto_spec q.p1 q.max_p1 job).2
        · intro p hne
          cases p <;> simp [SpeechQueue.push, hp, SpeechQueue.tier]
          exact absurd rfl hne
    | P2Commentary =>
        refine ⟨?_, ?_, ?_⟩
        · simpa [SpeechQueue.push, hp, SpeechQueue.tier, SpeechQueue.tierCap]
            using (pushInto_spec q.p2 q.max_p2 job).1
        · simpa [SpeechQueue.push, hp, SpeechQueue.tier, SpeechQueue.tierCap]
            using (pushInto_spec q.p2 q.max_p2 job).2
        · intro p hne
          cases p <;> simp [SpeechQueue.push, hp, SpeechQueue.tier]
          exact absurd rfl hne

/-- Witness for C10 at concrete inputs: pushing two P2 jobs into capacity-1
tiers keeps the P2 tier at one job. -/
theorem claim_C10_witness :
    ((SpeechQueue.new 1 1 1).pushAll
      [⟨"a", "a", SpeechPriority.P2Commentary, SpeechSource.Telemetry, 0, 9, "a"⟩,
       ⟨"b", "b", SpeechPriority.P2Commentary, SpeechSource.Telemetry, 1, 9, "b"⟩]).p2.length ≤ 1 :=
  (claim_C10 1 1 1
    [⟨"a", "a", SpeechPriority.P2Commentary, SpeechSource.Telemetry, 0, 9, "a"⟩,
     ⟨"b", "b", SpeechPriority.P2Commentary, SpeechSource.Telemetry, 1, 9, "b"⟩]
    (by decide) (by decide) (by decide)).1.2.2

theorem handshakePayloadId_sendHandshakeOk (use : Bool) (caps : List Nat)
    (hid : String) :
    handshakePayloadId (sendHandshakeOk use caps hid) = some hid := by
  cases use <;> rfl

theorem handshakePayloadId_sendHandshakeReject (use : Bool) (hid r u : String) :
    handshakePayloadId (sendHandshakeReject use hid r u) = none ∨
    handshakePayloadId (sendHandshakeReject use hid r u) = some hid := by
  cases use
  · exact Or.inl rfl
  · exact Or.inr rfl

/-- C8: the client-supplied `hello.handshake_id` is only logged and never
read: two handshakes differing only in `hello.handshake_id` produce the same
handshake reply and the same post-handshake session state (hence identical
outbound frames for the whole session, which are functions of that state and
later inputs), and whenever the bridge's reply carries a `handshake_id` it is
the server-generated session id. -/
theorem claim_C8 (pid : String) (env : HandshakeEnv) (session_id uuid : String)
    (hello : Hello) (hid1 hid2 : String) :
    (handshakeReply pid env session_id uuid { hello with handshake_id := hid1 } =
      handshakeReply pid env session_id uuid { hello with handshake_id := hid2 }) ∧
    (sessionStateAfterHello pid env session_id { hello with handshake_id := hid1 } =
      sessionStateAfterHello pid env session_id { hello with handshake_id := hid2 }) ∧
    (handshakePayloadId (handshakeReply pid env session_id uuid hello) = none ∨
      handshakePayloadId (handshakeReply pid env session_id uuid hello) =
        some session_id) := by
  refine ⟨rfl, rfl, ?_⟩
  obtain ⟨aid, role, caps, cv, hid⟩ := hello
  cases role <;>
    simp only [handshakeReply] <;>
    (try split_ifs) <;>
    first
      | exact Or.inr (handshakePayloadId_sendHandshakeOk _ _ _)
      | exact handshakePayloadId_sendHandshakeReject _ _ _ _
